import Mathlib

/-!
Verification of the task-distribution and batched-concurrent-processing
pipeline of the AI_RAG repository (src/backend/Producer.py,
src/backend/Consumer.py, src/utils/Cache_Manager.py), as a shallow
embedding in Lean 4.

Modelling conventions:
* External services (RabbitMQ transport, Redis, the SQL session, the RAG
  pipeline) are parameters of the embedding: the transport and the
  generator are functions returning `Except String _` (an `Except.error`
  models a raised Python exception), the cache is an association list
  keyed by the same string the source hashes.
* Side effects performed by the consumer (database insert, cache write,
  Redis publish, generator call) are recorded in an explicit effect
  trace; a `.log` constructor exists so that claims about logging are
  statable, though the consumer source never logs on these paths.
* The thread pool of `process_batch` is modelled by one serialization:
  items of a batch are processed in submission order, and an exception
  escaping one item is captured (as the discarded `Future` does in
  `concurrent.futures`) without affecting the remaining items.
-/

namespace AIRag

/-- JSON-like value that the `pdf_ids` field of a dequeued payload may
hold: either a bare string or a list of strings. -/
inductive JVal where
  | jstr (s : String)
  | jlist (l : List String)
deriving DecidableEq, Repr

/-- A dequeued task payload, as read by `process_single_item` via
`item.get(...)`: every field may be absent. -/
structure Item where
  user : Option String := none
  question : Option String := none
  pdf_ids : Option JVal := none
  pdf_id : Option String := none
deriving DecidableEq, Repr

/-- The structured result of `run_pipeline(question, pdf_id)`
(src/backend/Rag_pipeline.py returns
`{"answer": ..., "metadata": ..., "llm_model": ...}`; the metadata dict
is opaque to the consumer and modelled as a string blob). -/
structure RagResult where
  answer : String
  metadata : String
  llm_model : String
deriving DecidableEq, Repr

/-- Trace of the externally visible side effects of the consumer:
a database insert (`save_result_db`), a cache write
(`set_cached_answer`), a Redis publish (`publish_result`), a generator
invocation (`run_pipeline`), and a log emission. The consumer source
never emits `.log` on the per-item path; the constructor exists so that
claims about logging can be stated and refuted. -/
inductive Effect where
  | genInvoke (question pdf_id : String)
  | dbWrite (user question answer llm_model : String) (cache_hit : Bool)
  | cacheSet (question pdf_id answer : String)
  | publish (user question pdf_id answer llm_model : String)
  | log (msg : String)
deriving DecidableEq, Repr

def Effect.isDbWrite : Effect → Bool
  | .dbWrite _ _ _ _ _ => true
  | _ => false

def Effect.isPublish : Effect → Bool
  | .publish _ _ _ _ _ => true
  | _ => false

def Effect.isCacheSet : Effect → Bool
  | .cacheSet _ _ _ => true
  | _ => false

def Effect.isLog : Effect → Bool
  | .log _ => true
  | _ => false

def Effect.isGenInvoke : Effect → Bool
  | .genInvoke _ _ => true
  | _ => false

/-- Is this a `save_result_db` effect recorded with `cache_hit = true`? -/
def Effect.isCacheHitWrite : Effect → Bool
  | .dbWrite _ _ _ _ b => b
  | _ => false

/-- The Redis cache, as an association list from key to stored answer
string; a later `set` on the same key shadows an earlier one, as in
Redis. -/
abbrev Cache := List (String × String)

/-- Cache key of `_key(question, pdf_id)` in src/utils/Cache_Manager.py:
the source computes `"rag_cache:" + sha256(f"{pdf_id}:{question}").hexdigest()`.
The digest is a deterministic function of the concatenation
`pdf_id ++ ":" ++ question`, so the model keys the cache by that
preimage: equal concatenations yield equal keys exactly as in the
source, and only this equal-preimage direction is used by any claim. -/
def cacheKey (question pdf_id : String) : String :=
  "rag_cache:" ++ (pdf_id ++ ":" ++ question)

/-- Lookup of a key in the association-list cache: the most recent
write for a key wins, as in Redis. -/
def cache_lookup : Cache → String → Option String
  | [], _ => none
  | (k, v) :: rest, key => if key == k then some v else cache_lookup rest key

/-- `get_cached_answer(question, pdf_id)`: a Redis GET on the key,
`none` when absent. -/
def get_cached_answer (c : Cache) (question pdf_id : String) : Option String :=
  cache_lookup c (cacheKey question pdf_id)

/-- `set_cached_answer(question, pdf_id, answer, metadata)`: a Redis SET
of the answer under the key, followed (when metadata is present) by a
SET of the metadata blob under `key + ":meta"`. -/
def set_cached_answer (c : Cache) (question pdf_id answer : String)
    (metadata : Option String) : Cache :=
  match metadata with
  | some m => (cacheKey question pdf_id ++ ":meta", m) :: (cacheKey question pdf_id, answer) :: c
  | none => (cacheKey question pdf_id, answer) :: c

/-- Python truthiness of the value returned by `get_cached_answer`:
`if cached:` is false both for `None` and for the empty string. -/
def truthy : Option String → Bool
  | none => false
  | some s => s != ""

/-- Environment of the consumer: the generator `run_pipeline` (an
`Except.error` models a raised exception) and the outcome of the SQL
`session.commit()` inside `save_result_db` (the source wraps it in no
try/except, so an error propagates). -/
structure Env where
  run_pipeline : String → String → Except String RagResult
  db_commit : Except String Unit

/-- The list `pdf_ids` that the `for pdf_id in pdf_ids` loop of
`process_single_item` iterates over:
`item.get("pdf_ids") or [item.get("pdf_id", "default.pdf")]`.
A falsy `pdf_ids` value (absent, empty string, empty list) falls back to
a one-element list; a truthy bare string is NOT normalized, so the loop
iterates over its characters. -/
def pdf_list (it : Item) : List String :=
  let fallback := [it.pdf_id.getD "default.pdf"]
  match it.pdf_ids with
  | some (.jstr s) =>
      if s = "" then fallback else s.toList.map (fun ch => String.mk [ch])
  | some (.jlist l) => if l = [] then fallback else l
  | none => fallback

/-- One iteration of the per-pdf loop body of `process_single_item`:
check the cache; on a truthy hit, `save_result_db(..., "CACHE",
cache_hit=True)` then `publish_result`; on a miss, `run_pipeline`, then
`save_result_db(..., cache_hit=False)`, `set_cached_answer`, and
`publish_result`. Returns the updated cache, the effects emitted in
order, and the exception that escaped, if any (an exception aborts the
iteration at the raising call: effects after it are not emitted). -/
def process_pdf (env : Env) (c : Cache) (user question pdf_id : String) :
    Cache × List Effect × Option String :=
  let cached := get_cached_answer c question pdf_id
  if truthy cached then
    let a := cached.getD ""
    match env.db_commit with
    | .error e => (c, [], some e)
    | .ok _ =>
        (c, [.dbWrite user question a "CACHE" true,
             .publish user question pdf_id a "CACHE"], none)
  else
    match env.run_pipeline question pdf_id with
    | .error e => (c, [.genInvoke question pdf_id], some e)
    | .ok r =>
      match env.db_commit with
      | .error e => (c, [.genInvoke question pdf_id], some e)
      | .ok _ =>
          (set_cached_answer c question pdf_id r.answer (some r.metadata),
           [.genInvoke question pdf_id,
            .dbWrite user question r.answer r.llm_model false,
            .cacheSet question pdf_id r.answer,
            .publish user question pdf_id r.answer r.llm_model], none)

/-- Sequencing of one loop iteration with the rest of the loop: when the
iteration raised, the exception propagates and the rest does not run;
otherwise the rest continues from the iteration's cache state and the
effect traces are concatenated. -/
def thenContinue (r1 : Cache × List Effect × Option String)
    (k : Cache → Cache × List Effect × Option String) :
    Cache × List Effect × Option String :=
  match r1.2.2 with
  | some e => (r1.1, r1.2.1, some e)
  | none => ((k r1.1).1, r1.2.1 ++ (k r1.1).2.1, (k r1.1).2.2)

theorem thenContinue_some (c : Cache) (effs : List Effect) (e : String)
    (k : Cache → Cache × List Effect × Option String) :
    thenContinue (c, effs, some e) k = (c, effs, some e) := rfl

theorem thenContinue_none (c : Cache) (effs : List Effect)
    (k : Cache → Cache × List Effect × Option String) :
    thenContinue (c, effs, none) k = ((k c).1, effs ++ (k c).2.1, (k c).2.2) := rfl

/-- The `for pdf_id in pdf_ids` loop of `process_single_item`: iterate
`process_pdf` over the refs, threading the cache and concatenating the
effect traces; a raised exception propagates, stopping the loop. -/
def process_pdfs (env : Env) (user question : String) :
    List String → Cache → Cache × List Effect × Option String
  | [], c => (c, [], none)
  | pdf :: rest, c =>
    thenContinue (process_pdf env c user question pdf) (process_pdfs env user question rest)

/-- `process_single_item(item)`: extract `user` (default `"anonymous"`),
`question` (default `""`), and the pdf list, then run the per-pdf loop.
The source has no try/except, so an exception from any step escapes the
function (third component `some e`). -/
def process_single_item (env : Env) (c : Cache) (it : Item) :
    Cache × List Effect × Option String :=
  process_pdfs env (it.user.getD "anonymous") (it.question.getD "") (pdf_list it) c

/-- `process_batch(batch)`: each item is submitted to the
`ThreadPoolExecutor` as an independent unit; an exception escaping one
item is captured in its (discarded) `Future` and neither aborts the
remaining items nor crashes the pool. Modelled as one serialization of
the pool: items run in submission order, each returning its effect
trace and its captured exception, if any. -/
def process_batch (env : Env) (c : Cache) :
    List Item → Cache × List (List Effect × Option String)
  | [] => (c, [])
  | it :: rest =>
    let r := process_single_item env c it
    let rs := process_batch env r.1 rest
    (rs.1, (r.2.1, r.2.2) :: rs.2)

/-- Message delivered to the RabbitMQ callback `on_message`: either the
body fails `json.loads` (malformed) or it parses to an item. -/
inductive Message where
  | malformed
  | parsed (it : Item)
deriving DecidableEq, Repr

/-- State shared by the dispatcher: the in-memory `batch_buffer` and the
list of batches already handed to `process_batch` threads. -/
structure DispatcherState where
  batch_buffer : List Item
  dispatched : List (List Item)
deriving DecidableEq, Repr

/-- Initial dispatcher state: `batch_buffer = []`, nothing dispatched. -/
def initial_state : DispatcherState := ⟨[], []⟩

/-- `on_message(ch, method, properties, body)`: a malformed body is
acknowledged and dropped, leaving the state unchanged; a parsed payload
is appended to `batch_buffer` under the lock and, when the buffer
reaches `BATCH_SIZE` (`B`), the whole buffer is swapped for an empty
list and dispatched as one batch, inside the same critical section. -/
def on_message (B : Nat) (s : DispatcherState) : Message → DispatcherState
  | .malformed => s
  | .parsed d =>
    let buf := s.batch_buffer ++ [d]
    if B ≤ buf.length then
      { batch_buffer := [], dispatched := s.dispatched ++ [buf] }
    else
      { batch_buffer := buf, dispatched := s.dispatched }

/-- Deliver a sequence of messages to `on_message`, in order. -/
def run_messages (B : Nat) (s : DispatcherState) (ms : List Message) : DispatcherState :=
  ms.foldl (on_message B) s

/-- The `pdf_ids` argument of `send_task`: `None`, a bare string, or a
list of strings. -/
inductive PdfArg where
  | noneArg
  | strArg (s : String)
  | listArg (l : List String)
deriving DecidableEq, Repr

/-- The JSON payload `send_task` serializes and publishes. -/
structure Payload where
  user : String
  question : String
  pdf_ids : List String
deriving DecidableEq, Repr

/-- Normalization step 1 of `send_task`: `None` becomes
`["default.pdf"]`, a bare string becomes a one-element list, a list is
taken as given (an empty list included). -/
def normalize_pdf_ids : PdfArg → List String
  | .noneArg => ["default.pdf"]
  | .strArg s => [s]
  | .listArg l => l

/-- The payload built by `send_task` before publishing. -/
def mk_payload (user question : String) (a : PdfArg) : Payload :=
  ⟨user, question, normalize_pdf_ids a⟩

/-- Observable outcome of one `send_task` call: the messages actually
enqueued, the number of `basic_publish` attempts made, and either the
returned value or the exception that propagated to the caller. -/
structure SendResult where
  published : List Payload
  attempts : Nat
  result : Except String Bool

/-- `send_task(user, question, pdf_ids)`: normalize `pdf_ids`, build the
payload, and publish it once with `delivery_mode=2`. The source performs
no input validation and wraps nothing in try/except: a transport failure
raises to the caller (and nothing is enqueued), a success returns
`True`. `transport` models the broker's `basic_publish`. -/
def send_task (transport : Payload → Except String Unit)
    (user question : String) (pdf_ids : PdfArg) : SendResult :=
  let payload := mk_payload user question pdf_ids
  match transport payload with
  | .ok _ => { published := [payload], attempts := 1, result := .ok true }
  | .error e => { published := [], attempts := 1, result := .error e }

/-- Number of `save_result_db` inserts (ResultRecords) in a trace. -/
def countDbWrites (l : List Effect) : Nat := (l.filter Effect.isDbWrite).length

/-- Number of `publish_result` emissions (Outcomes) in a trace. -/
def countPublishes (l : List Effect) : Nat := (l.filter Effect.isPublish).length

/-- Does no entry of a batch result contain a log emission? -/
def no_log_entries (rs : List (List Effect × Option String)) : Bool :=
  rs.all (fun entry => entry.1.all (fun e => !e.isLog))

/-! Concrete fixtures used by counterexamples and witnesses. -/

/-- A transport whose `basic_publish` always raises. -/
def failTransport : Payload → Except String Unit := fun _ => .error "boom"

/-- A transport whose `basic_publish` always succeeds. -/
def okTransport : Payload → Except String Unit := fun _ => .ok ()

/-- An environment whose generator succeeds on every input and whose
database commits succeed. -/
def demoEnv : Env :=
  { run_pipeline := fun _ p => .ok ⟨"answer:" ++ p, "meta", "GPT-4"⟩,
    db_commit := .ok () }

/-- An environment whose generator raises exactly on documentRef `"b"`. -/
def c1Env : Env :=
  { run_pipeline := fun _ p =>
      if p = "b" then .error "generator boom" else .ok ⟨"ansA", "meta", "GPT-4"⟩,
    db_commit := .ok () }

/-- A task whose pdf list is `["a", "b"]`: the generator of `c1Env`
succeeds on `"a"` and raises on `"b"`. -/
def c1Item : Item :=
  { user := some "alice", question := some "q1", pdf_ids := some (.jlist ["a", "b"]) }

/-- A sibling task in the same batch as `c1Item`. -/
def c1Sibling : Item :=
  { user := some "bob", question := some "q2", pdf_ids := some (.jlist ["c"]) }

/-- An environment whose database commit always raises. -/
def c4Env : Env :=
  { run_pipeline := fun _ p => .ok ⟨"answer:" ++ p, "meta", "GPT-4"⟩,
    db_commit := .error "disk full" }

/-- An environment whose generator always returns the empty answer
string. -/
def c6Env : Env :=
  { run_pipeline := fun _ _ => .ok ⟨"", "meta", "GPT-4"⟩,
    db_commit := .ok () }

/-- The cache state left behind by the successful first documentRef of
`c1Item` under `c1Env`. -/
def c1CacheAfterA : Cache :=
  [("rag_cache:a:q1:meta", "meta"), ("rag_cache:a:q1", "ansA")]

/-- The effects emitted for the successful first documentRef of
`c1Item` under `c1Env`. -/
def c1EffsA : List Effect :=
  [.genInvoke "q1" "a", .dbWrite "alice" "q1" "ansA" "GPT-4" false,
   .cacheSet "q1" "a" "ansA", .publish "alice" "q1" "a" "ansA" "GPT-4"]

/-- An item whose `pdf_ids` field is the bare string `"ab"`. -/
def c9Item : Item :=
  { user := some "carol", question := some "q9", pdf_ids := some (.jstr "ab") }

/-- A first demo item for dispatcher scenarios. -/
def demoItemA : Item :=
  { user := some "alice", question := some "qa", pdf_ids := some (.jlist ["a.pdf"]) }

/-- A second demo item for dispatcher scenarios. -/
def demoItemB : Item :=
  { user := some "bob", question := some "qb", pdf_ids := some (.jlist ["b.pdf"]) }

/-! Theorems settling the claims. -/

/-- C2 (counterexample): with a transport that always raises,
`send_task` makes exactly one publish attempt — no retry, no delay —
and the exception propagates to the caller instead of a failure return,
contradicting the claimed retry-up-to-a-bound-then-return-failure
behaviour. -/
theorem C2_counterexample :
    (send_task failTransport "u" "q" (.listArg ["d.pdf"])).attempts = 1 ∧
    (send_task failTransport "u" "q" (.listArg ["d.pdf"])).result = .error "boom" ∧
    (send_task failTransport "u" "q" (.listArg ["d.pdf"])).published = [] :=
  ⟨rfl, rfl, rfl⟩

/-- C2 (amended): `send_task` makes exactly one publish attempt with no
retries and no delay; when the transport raises, the exception
propagates to the caller (no failure value is returned) and nothing is
enqueued, so no partial state remains. -/
theorem C2_amended (transport : Payload → Except String Unit)
    (user question : String) (a : PdfArg) (e : String)
    (h : transport (mk_payload user question a) = .error e) :
    (send_task transport user question a).attempts = 1 ∧
    (send_task transport user question a).result = .error e ∧
    (send_task transport user question a).published = [] := by
  simp [send_task, h]

/-- C2 (witness): the amended statement instantiated at the
always-failing transport. -/
theorem C2_amended_witness :
    failTransport (mk_payload "u" "q" (.listArg ["d.pdf"])) = .error "boom" ∧
    ((send_task failTransport "u" "q" (.listArg ["d.pdf"])).attempts = 1 ∧
     (send_task failTransport "u" "q" (.listArg ["d.pdf"])).result = .error "boom" ∧
     (send_task failTransport "u" "q" (.listArg ["d.pdf"])).published = []) :=
  ⟨rfl, C2_amended failTransport "u" "q" (.listArg ["d.pdf"]) "boom" rfl⟩

/-- C3 (counterexample): `send_task` with an empty question and an empty
pdf list enqueues the degraded payload unchanged and returns success,
contradicting the claimed rejection. -/
theorem C3_counterexample :
    (send_task okTransport "u" "" (.listArg [])).result = .ok true ∧
    (send_task okTransport "u" "" (.listArg [])).published = [⟨"u", "", []⟩] :=
  ⟨rfl, rfl⟩

/-- C3 (amended): `send_task` performs no input validation: for every
user and every transport that accepts the message, an empty question
together with an empty documentRefs list is serialized and enqueued
unchanged, and the call returns `True`. -/
theorem C3_amended (transport : Payload → Except String Unit) (user : String)
    (h : transport (mk_payload user "" (.listArg [])) = .ok ()) :
    (send_task transport user "" (.listArg [])).result = .ok true ∧
    (send_task transport user "" (.listArg [])).published = [⟨user, "", []⟩] := by
  simp only [mk_payload, normalize_pdf_ids] at h
  refine ⟨?_, ?_⟩ <;> simp [send_task, mk_payload, normalize_pdf_ids, h]

/-- C3 (witness): the amended statement instantiated at the
always-accepting transport. -/
theorem C3_amended_witness :
    okTransport (mk_payload "u" "" (.listArg [])) = .ok () ∧
    ((send_task okTransport "u" "" (.listArg [])).result = .ok true ∧
     (send_task okTransport "u" "" (.listArg [])).published = [⟨"u", "", []⟩]) :=
  ⟨rfl, C3_amended okTransport "u" rfl⟩

/-- C8: the cache key is built from the concatenation
`pdf_id ++ ":" ++ question`, so the distinct pairs
`(documentRef, question) = ("a:b", "c")` and `("a", "b:c")` collide:
their keys are equal, and an entry written for the first pair is
returned as a hit for the second. -/
theorem C8_collision :
    (("a:b", "c") ≠ (("a" : String), ("b:c" : String))) ∧
    cacheKey "c" "a:b" = cacheKey "b:c" "a" ∧
    get_cached_answer (set_cached_answer [] "c" "a:b" "ANS" none) "b:c" "a" = some "ANS" := by
  refine ⟨by decide, rfl, by decide⟩

/-- C4 (counterexample): with a database whose commit raises, processing
one item under an empty cache stops at the persistence write: the
exception propagates, nothing is logged, and neither the cache update
nor the broadcast happens — contradicting the claim that the failure is
logged and does not prevent them. -/
theorem C4_counterexample :
    ((process_pdf c4Env [] "u" "q" "d").2.2 = some "disk full") ∧
    ((process_pdf c4Env [] "u" "q" "d").2.1.any
       (fun e => e.isCacheSet || e.isPublish || e.isLog) = false) := by
  refine ⟨by decide, by decide⟩

/-- C4 (amended): when the persistence write raises (the commit inside
`save_result_db` fails), the exception propagates out of the per-pdf
processing step: nothing is logged, no ResultRecord is written, and the
subsequent cache update and Outcome broadcast for that documentRef are
skipped, the cache left unchanged — in both the hit and the miss
branch. -/
theorem C4_amended (env : Env) (c : Cache) (u q p e : String)
    (hdb : env.db_commit = .error e) :
    ((process_pdf env c u q p).2.2.isSome = true) ∧
    ((process_pdf env c u q p).2.1.any
       (fun eff => eff.isDbWrite || eff.isCacheSet || eff.isPublish || eff.isLog) = false) ∧
    (process_pdf env c u q p).1 = c := by
  unfold process_pdf
  simp only [hdb]
  split
  · exact ⟨rfl, rfl, rfl⟩
  · cases hg : env.run_pipeline q p <;> exact ⟨rfl, rfl, rfl⟩

/-- C4 (witness): the amended statement instantiated at the environment
whose commit raises. -/
theorem C4_amended_witness :
    c4Env.db_commit = .error "disk full" ∧
    (((process_pdf c4Env [] "u" "q" "d").2.2.isSome = true) ∧
     ((process_pdf c4Env [] "u" "q" "d").2.1.any
        (fun eff => eff.isDbWrite || eff.isCacheSet || eff.isPublish || eff.isLog) = false) ∧
     (process_pdf c4Env [] "u" "q" "d").1 = []) :=
  ⟨rfl, C4_amended c4Env [] "u" "q" "d" "disk full" rfl⟩

/-- A string is never equal to itself extended by the `":meta"` suffix:
the metadata entry written by `set_cached_answer` can never shadow the
answer entry. -/
theorem cacheKey_ne_meta (s : String) : (s == s ++ ":meta") = false := by
  have hlen : s.length ≠ (s ++ ":meta").length := by
    simp [String.length_append]
    decide
  have hne : s ≠ s ++ ":meta" := fun hcontra => hlen (by rw [← hcontra])
  exact beq_eq_false_iff_ne.mpr hne

/-- C6 (counterexample): when the generator returns the empty answer
string, a second processing pass for the same `(documentRef, question)`
pair is not a cache hit: Python truthiness treats the cached empty
string as a miss, so the generator is invoked again and no record has
`cacheHit = true` — contradicting the universally stated idempotence. -/
theorem C6_counterexample :
    ((process_pdf c6Env [] "u" "q" "d").2.2 = none) ∧
    ((process_pdf c6Env (process_pdf c6Env [] "u" "q" "d").1 "u" "q" "d").2.1.any
       Effect.isGenInvoke = true) ∧
    ((process_pdf c6Env (process_pdf c6Env [] "u" "q" "d").1 "u" "q" "d").2.1.any
       Effect.isCacheHitWrite = false) := by
  refine ⟨by decide, by decide, by decide⟩

/-- C6 (amended): for a fixed `(documentRef, question)` pair whose first
pass is a cache miss and whose generated answer is a NON-EMPTY string,
a second pass within the TTL window is a cache hit: it emits exactly one
ResultRecord with `cacheHit = true` and model name `"CACHE"` carrying
the same answer as the first pass, one Outcome with that answer and
model `"CACHE"`, raises nothing, and does not invoke the generator.
(The non-emptiness proviso is forced by the `if cached:` truthiness
test: an empty cached answer is treated as a miss.) -/
theorem C6_amended (env : Env) (c : Cache) (u u' q d ans meta m : String)
    (hdb : env.db_commit = .ok ())
    (hmiss : truthy (get_cached_answer c q d) = false)
    (hgen : env.run_pipeline q d = .ok ⟨ans, meta, m⟩)
    (hne : ans ≠ "") :
    ((process_pdf env (process_pdf env c u q d).1 u' q d).2.1 =
       [.dbWrite u' q ans "CACHE" true, .publish u' q d ans "CACHE"]) ∧
    ((process_pdf env (process_pdf env c u q d).1 u' q d).2.2 = none) ∧
    ((process_pdf env (process_pdf env c u q d).1 u' q d).2.1.any
       Effect.isGenInvoke = false) := by
  have h1 : process_pdf env c u q d =
      (set_cached_answer c q d ans (some meta),
       [.genInvoke q d, .dbWrite u q ans m false, .cacheSet q d ans,
        .publish u q d ans m], none) := by
    unfold process_pdf
    simp [hmiss, hgen, hdb]
  have h2 : get_cached_answer (set_cached_answer c q d ans (some meta)) q d = some ans := by
    simp [get_cached_answer, set_cached_answer, cache_lookup, cacheKey_ne_meta]
  have hb : (ans != "") = true := by simpa using hne
  have h3 : process_pdf env (set_cached_answer c q d ans (some meta)) u' q d =
      (set_cached_answer c q d ans (some meta),
       [.dbWrite u' q ans "CACHE" true, .publish u' q d ans "CACHE"], none) := by
    unfold process_pdf
    simp [h2, truthy, hb, hdb]
  simp [h1, h3, Effect.isGenInvoke]

/-- C6 (witness): the amended statement instantiated at the demo
environment, whose generated answer `"answer:d"` is non-empty. -/
theorem C6_amended_witness :
    demoEnv.db_commit = .ok () ∧
    truthy (get_cached_answer [] "q" "d") = false ∧
    demoEnv.run_pipeline "q" "d" = .ok ⟨"answer:d", "meta", "GPT-4"⟩ ∧
    "answer:d" ≠ "" ∧
    (((process_pdf demoEnv (process_pdf demoEnv [] "u" "q" "d").1 "u2" "q" "d").2.1 =
        [.dbWrite "u2" "q" "answer:d" "CACHE" true,
         .publish "u2" "q" "d" "answer:d" "CACHE"]) ∧
     ((process_pdf demoEnv (process_pdf demoEnv [] "u" "q" "d").1 "u2" "q" "d").2.2 = none) ∧
     ((process_pdf demoEnv (process_pdf demoEnv [] "u" "q" "d").1 "u2" "q" "d").2.1.any
        Effect.isGenInvoke = false)) :=
  ⟨rfl, rfl, rfl, by decide,
   C6_amended demoEnv [] "u" "u2" "q" "d" "answer:d" "meta" "GPT-4" rfl rfl rfl (by decide)⟩

/-- Splitting lemma for the per-pdf loop: when the loop over a prefix of
the refs completes without an exception, the loop over the whole list
continues from the prefix's final cache state, prepending the prefix's
effects. -/
theorem process_pdfs_append_ok (env : Env) (u q : String) (l₂ : List String) :
    ∀ (l₁ : List String) (c c₁ : Cache) (effs₁ : List Effect),
      process_pdfs env u q l₁ c = (c₁, effs₁, none) →
      process_pdfs env u q (l₁ ++ l₂) c =
        ((process_pdfs env u q l₂ c₁).1,
         effs₁ ++ (process_pdfs env u q l₂ c₁).2.1,
         (process_pdfs env u q l₂ c₁).2.2) := by
  intro l₁
  induction l₁ with
  | nil =>
    intro c c₁ effs₁ h
    simp only [process_pdfs, Prod.mk.injEq] at h
    obtain ⟨h1, h2, -⟩ := h
    subst h1
    subst h2
    simp [process_pdfs]
  | cons p rest ih =>
    intro c c₁ effs₁ h
    simp only [List.cons_append, process_pdfs] at h ⊢
    cases hp : process_pdf env c u q p with
    | mk cp tl =>
      obtain ⟨effp, errp⟩ := tl
      cases errp with
      | some e =>
        rw [hp, thenContinue_some] at h
        simp at h
      | none =>
        rw [hp, thenContinue_none] at h
        rw [thenContinue_none]
        cases hr : process_pdfs env u q rest cp with
        | mk cr tlr =>
          obtain ⟨er, xr⟩ := tlr
          rw [hr] at h
          simp only [Prod.mk.injEq] at h
          obtain ⟨h1, h2, h3⟩ := h
          subst h1
          subst h3
          have hih := ih cp cr er hr
          simp only [List.append_eq] at hih ⊢
          rw [hih]
          simp [← h2, List.append_assoc]

/-- The worker pool survives every batch: `process_batch` yields exactly
one result entry per submitted item. -/
theorem process_batch_length (env : Env) :
    ∀ (items : List Item) (c : Cache),
      (process_batch env c items).2.length = items.length := by
  intro items
  induction items with
  | nil => intro c; rfl
  | cons it rest ih => intro c; simp [process_batch, ih]

/-- No branch of the per-pdf loop body ever emits a log effect
(boolean form). -/
theorem process_pdf_all_no_log (env : Env) (c : Cache) (u q p : String) :
    (process_pdf env c u q p).2.1.all (fun e => !e.isLog) = true := by
  unfold process_pdf
  rcases ht : truthy (get_cached_answer c q p) <;>
    rcases hdb : env.db_commit with edb | udb <;>
      rcases hg : env.run_pipeline q p with eg | r <;>
        simp [ht, hdb, hg, Effect.isLog]

/-- No branch of the per-pdf loop body ever emits a log effect. -/
theorem process_pdf_no_log (env : Env) (c : Cache) (u q p : String) :
    ∀ e ∈ (process_pdf env c u q p).2.1, e.isLog = false := by
  have h := process_pdf_all_no_log env c u q p
  simp only [List.all_eq_true] at h
  intro e he
  simpa using h e he

/-- The per-pdf loop never emits a log effect. -/
theorem process_pdfs_no_log (env : Env) (u q : String) :
    ∀ (l : List String) (c : Cache),
      ∀ e ∈ (process_pdfs env u q l c).2.1, e.isLog = false := by
  intro l
  induction l with
  | nil => intro c e he; simp [process_pdfs] at he
  | cons p rest ih =>
    intro c e he
    simp only [process_pdfs] at he
    cases hp : process_pdf env c u q p with
    | mk cp tl =>
      obtain ⟨effp, errp⟩ := tl
      have hpn : ∀ x ∈ effp, Effect.isLog x = false := by
        have hall := process_pdf_no_log env c u q p
        rw [hp] at hall
        simpa using hall
      cases errp with
      | some e2 =>
        rw [hp, thenContinue_some] at he
        exact hpn e he
      | none =>
        rw [hp, thenContinue_none] at he
        rcases List.mem_append.mp he with hm | hm
        · exact hpn e hm
        · exact ih cp e hm

/-- No entry of a processed batch contains a log effect: the consumer
source logs nothing on the per-item path. -/
theorem process_batch_no_log (env : Env) :
    ∀ (items : List Item) (c : Cache),
      ∀ entry ∈ (process_batch env c items).2, ∀ e ∈ entry.1, e.isLog = false := by
  intro items
  induction items with
  | nil => intro c entry hentry; simp [process_batch] at hentry
  | cons it rest ih =>
    intro c entry hentry
    simp only [process_batch, List.mem_cons] at hentry
    rcases hentry with rfl | hentry
    · intro e he
      exact process_pdfs_no_log env (it.user.getD "anonymous") (it.question.getD "")
        (pdf_list it) c e he
    · exact ih _ entry hentry

/-- Boolean corollary: no entry of a processed batch contains a log
emission. -/
theorem process_batch_all_no_log (env : Env) (items : List Item) (c : Cache) :
    no_log_entries (process_batch env c items).2 = true := by
  simp only [no_log_entries, List.all_eq_true]
  intro entry hentry e he
  simp [process_batch_no_log env items c entry hentry e he]

/-- C1 (counterexample): for an item whose generator raises on its
second documentRef, the processing trace contains a ResultRecord write
(so a record IS produced for the failed item) and contains no log
emission (so the exception is NOT logged), contradicting the claim as
stated. -/
theorem C1_counterexample :
    ((process_single_item c1Env [] c1Item).2.2 = some "generator boom") ∧
    ((process_single_item c1Env [] c1Item).2.1.any Effect.isDbWrite = true) ∧
    ((process_single_item c1Env [] c1Item).2.1.any Effect.isLog = false) := by
  refine ⟨by decide, by decide, by decide⟩

/-- C1 (amended): when `run_pipeline` raises for one documentRef of an
item (after a successfully processed prefix of its refs), the exception
escapes `process_single_item` at the raising call — no ResultRecord,
cache write, or Outcome is produced for the failing documentRef or any
later one of that item, though effects already emitted for earlier
documentRefs remain; the worker pool captures the exception in the
item's discarded Future without logging anything, does not crash (one
result entry per submitted item), and the sibling items of the batch are
still processed, continuing from the cache state the failed item left
behind. -/
theorem C1_amended (env : Env) (c : Cache) (it : Item) (rest : List Item)
    (l₁ l₂ : List String) (p : String) (c₁ : Cache) (effs₁ : List Effect) (msg : String)
    (hsplit : pdf_list it = l₁ ++ p :: l₂)
    (hok : process_pdfs env (it.user.getD "anonymous") (it.question.getD "") l₁ c =
      (c₁, effs₁, none))
    (hmiss : truthy (get_cached_answer c₁ (it.question.getD "") p) = false)
    (hgen : env.run_pipeline (it.question.getD "") p = .error msg) :
    process_single_item env c it =
      (c₁, effs₁ ++ [.genInvoke (it.question.getD "") p], some msg) ∧
    process_batch env c (it :: rest) =
      ((process_batch env c₁ rest).1,
       (effs₁ ++ [.genInvoke (it.question.getD "") p], some msg) ::
         (process_batch env c₁ rest).2) ∧
    (process_batch env c (it :: rest)).2.length = rest.length + 1 ∧
    no_log_entries (process_batch env c (it :: rest)).2 = true := by
  have hstep : process_pdfs env (it.user.getD "anonymous") (it.question.getD "")
      (p :: l₂) c₁ = (c₁, [.genInvoke (it.question.getD "") p], some msg) := by
    have hone : process_pdf env c₁ (it.user.getD "anonymous") (it.question.getD "") p =
        (c₁, [.genInvoke (it.question.getD "") p], some msg) := by
      unfold process_pdf
      simp [hmiss, hgen]
    simp only [process_pdfs]
    rw [hone, thenContinue_some]
  have h1 : process_single_item env c it =
      (c₁, effs₁ ++ [.genInvoke (it.question.getD "") p], some msg) := by
    unfold process_single_item
    rw [hsplit,
      process_pdfs_append_ok env (it.user.getD "anonymous") (it.question.getD "")
        (p :: l₂) l₁ c c₁ effs₁ hok, hstep]
  refine ⟨h1, ?_, ?_, ?_⟩
  · simp [process_batch, h1]
  · simp [process_batch_length]
  · exact process_batch_all_no_log env (it :: rest) c

/-- C1 (witness): the amended statement instantiated at the batch
`[c1Item, c1Sibling]` whose first item's generator raises on
documentRef `"b"`. -/
theorem C1_amended_witness :
    pdf_list c1Item = ["a"] ++ "b" :: [] ∧
    process_pdfs c1Env (c1Item.user.getD "anonymous") (c1Item.question.getD "") ["a"] [] =
      (c1CacheAfterA, c1EffsA, none) ∧
    truthy (get_cached_answer c1CacheAfterA (c1Item.question.getD "") "b") = false ∧
    c1Env.run_pipeline (c1Item.question.getD "") "b" = .error "generator boom" ∧
    (process_single_item c1Env [] c1Item =
       (c1CacheAfterA, c1EffsA ++ [.genInvoke (c1Item.question.getD "") "b"],
        some "generator boom") ∧
     process_batch c1Env [] (c1Item :: [c1Sibling]) =
       ((process_batch c1Env c1CacheAfterA [c1Sibling]).1,
        (c1EffsA ++ [.genInvoke (c1Item.question.getD "") "b"], some "generator boom") ::
          (process_batch c1Env c1CacheAfterA [c1Sibling]).2) ∧
     (process_batch c1Env [] (c1Item :: [c1Sibling])).2.length = [c1Sibling].length + 1 ∧
     no_log_entries (process_batch c1Env [] (c1Item :: [c1Sibling])).2 = true) :=
  ⟨by decide, by decide, by decide, rfl,
   C1_amended c1Env [] c1Item [c1Sibling] ["a"] [] "b" c1CacheAfterA c1EffsA
     "generator boom" (by decide) (by decide) (by decide) rfl⟩

/-- With a committing database and a never-raising generator, one loop
iteration emits exactly one ResultRecord and one Outcome and raises
nothing — in the cache-hit branch as well as the cache-miss branch. -/
theorem process_pdf_counts (env : Env) (hdb : env.db_commit = .ok ())
    (hgen : ∀ q' p', (env.run_pipeline q' p').isOk = true)
    (c : Cache) (u q p : String) :
    countDbWrites (process_pdf env c u q p).2.1 = 1 ∧
    countPublishes (process_pdf env c u q p).2.1 = 1 ∧
    (process_pdf env c u q p).2.2 = none := by
  unfold process_pdf
  simp only [hdb]
  split
  · exact ⟨rfl, rfl, rfl⟩
  · cases hg : env.run_pipeline q p with
    | error e => exact absurd (hgen q p) (by simp [hg, Except.isOk, Except.toBool])
    | ok r => exact ⟨rfl, rfl, rfl⟩

theorem countDbWrites_append (a b : List Effect) :
    countDbWrites (a ++ b) = countDbWrites a + countDbWrites b := by
  simp [countDbWrites, List.filter_append]

theorem countPublishes_append (a b : List Effect) :
    countPublishes (a ++ b) = countPublishes a + countPublishes b := by
  simp [countPublishes, List.filter_append]

/-- With a committing database and a never-raising generator, the
per-pdf loop over N refs raises nothing and emits exactly N
ResultRecords and N Outcomes. -/
theorem process_pdfs_counts (env : Env) (hdb : env.db_commit = .ok ())
    (hgen : ∀ q' p', (env.run_pipeline q' p').isOk = true) (u q : String) :
    ∀ (pdfs : List String) (c : Cache),
      (process_pdfs env u q pdfs c).2.2 = none ∧
      countDbWrites (process_pdfs env u q pdfs c).2.1 = pdfs.length ∧
      countPublishes (process_pdfs env u q pdfs c).2.1 = pdfs.length := by
  intro pdfs
  induction pdfs with
  | nil => intro c; exact ⟨rfl, rfl, rfl⟩
  | cons p rest ih =>
    intro c
    simp only [process_pdfs]
    cases hp : process_pdf env c u q p with
    | mk cp tl =>
      obtain ⟨effp, errp⟩ := tl
      have hc := process_pdf_counts env hdb hgen c u q p
      rw [hp] at hc
      obtain ⟨hd, hpub, herr⟩ := hc
      have herr' : errp = none := herr
      subst herr'
      obtain ⟨ih1, ih2, ih3⟩ := ih cp
      rw [thenContinue_none]
      refine ⟨ih1, ?_, ?_⟩
      · rw [countDbWrites_append]
        have hd' : countDbWrites effp = 1 := hd
        rw [hd', ih2]
        simp [Nat.add_comm]
      · rw [countPublishes_append]
        have hp' : countPublishes effp = 1 := hpub
        rw [hp', ih3]
        simp [Nat.add_comm]

/-- C5: under a committing database and a never-raising generator, each
per-pdf iteration (each ProcessingItem) writes exactly one ResultRecord
and publishes exactly one Outcome whether it hits or misses the cache,
and processing N ProcessingItems emits exactly N ResultRecords and N
Outcomes with no exception. -/
theorem C5_record_per_item (env : Env) (c : Cache) (u q p : String)
    (pdfs : List String)
    (hdb : env.db_commit = .ok ())
    (hgen : ∀ q' p', (env.run_pipeline q' p').isOk = true) :
    (countDbWrites (process_pdf env c u q p).2.1 = 1 ∧
     countPublishes (process_pdf env c u q p).2.1 = 1 ∧
     (process_pdf env c u q p).2.2 = none) ∧
    ((process_pdfs env u q pdfs c).2.2 = none ∧
     countDbWrites (process_pdfs env u q pdfs c).2.1 = pdfs.length ∧
     countPublishes (process_pdfs env u q pdfs c).2.1 = pdfs.length) :=
  ⟨process_pdf_counts env hdb hgen c u q p,
   process_pdfs_counts env hdb hgen u q pdfs c⟩

/-- C5 (witness): the statement instantiated at the demo environment,
an empty cache and two ProcessingItems. -/
theorem C5_record_per_item_witness :
    (countDbWrites (process_pdf demoEnv [] "alice" "q" "d1").2.1 = 1 ∧
     countPublishes (process_pdf demoEnv [] "alice" "q" "d1").2.1 = 1 ∧
     (process_pdf demoEnv [] "alice" "q" "d1").2.2 = none) ∧
    ((process_pdfs demoEnv "alice" "q" ["d1", "d2"] []).2.2 = none ∧
     countDbWrites (process_pdfs demoEnv "alice" "q" ["d1", "d2"] []).2.1 =
       (["d1", "d2"] : List String).length ∧
     countPublishes (process_pdfs demoEnv "alice" "q" ["d1", "d2"] []).2.1 =
       (["d1", "d2"] : List String).length) :=
  C5_record_per_item demoEnv [] "alice" "q" "d1" ["d1", "d2"] rfl (fun _ _ => rfl)

/-- Accumulation below the threshold: while the buffer stays strictly
below the batch size, parsed messages only append to it and nothing is
dispatched. -/
theorem run_below_threshold (B : Nat) :
    ∀ (items : List Item) (s : DispatcherState),
      s.batch_buffer.length + items.length < B →
      run_messages B s (items.map Message.parsed) =
        ⟨s.batch_buffer ++ items, s.dispatched⟩ := by
  intro items
  induction items with
  | nil =>
    intro s h
    simp [run_messages]
  | cons d rest ih =>
    intro s h
    have h' : s.batch_buffer.length + (rest.length + 1) < B := by simpa using h
    have hstep : on_message B s (Message.parsed d) =
        ⟨s.batch_buffer ++ [d], s.dispatched⟩ := by
      simp only [on_message]
      rw [if_neg]
      simp only [List.length_append, List.length_cons, List.length_nil]
      omega
    have hrun : run_messages B s ((d :: rest).map Message.parsed) =
        run_messages B (on_message B s (Message.parsed d)) (rest.map Message.parsed) := rfl
    rw [hrun, hstep, ih ⟨s.batch_buffer ++ [d], s.dispatched⟩ (by simp; omega)]
    simp

/-- C7: with batch size B ≥ 1, delivering exactly B parsed messages to
an idle dispatcher produces exactly one dispatch carrying all B items
and leaves the buffer empty, while delivering B − 1 messages produces
no dispatch, the items accumulating in the buffer. -/
theorem C7_batch_threshold (B : Nat) (msgs msgsB1 : List Item)
    (hB : 1 ≤ B) (h1 : msgs.length = B) (h2 : msgsB1.length = B - 1) :
    run_messages B initial_state (msgs.map Message.parsed) = ⟨[], [msgs]⟩ ∧
    (run_messages B initial_state (msgsB1.map Message.parsed)).dispatched = [] ∧
    (run_messages B initial_state (msgsB1.map Message.parsed)).batch_buffer = msgsB1 := by
  have hb1 : run_messages B initial_state (msgsB1.map Message.parsed) = ⟨msgsB1, []⟩ := by
    have hlt : (initial_state).batch_buffer.length + msgsB1.length < B := by
      simp [initial_state, h2]
      omega
    have := run_below_threshold B msgsB1 initial_state hlt
    simpa [initial_state] using this
  refine ⟨?_, by rw [hb1], by rw [hb1]⟩
  rcases List.eq_nil_or_concat msgs with hnil | ⟨L, b, hLb⟩
  · rw [hnil] at h1
    simp at h1
    omega
  · subst hLb
    have hL : L.length = B - 1 := by
      rw [List.concat_eq_append, List.length_append] at h1
      simp at h1
      omega
    have hrunL : run_messages B initial_state (L.map Message.parsed) = ⟨L, []⟩ := by
      have hlt : (initial_state).batch_buffer.length + L.length < B := by
        simp [initial_state, hL]
        omega
      have := run_below_threshold B L initial_state hlt
      simpa [initial_state] using this
    have hsplitmsgs : (L.concat b).map Message.parsed =
        L.map Message.parsed ++ [Message.parsed b] := by
      simp [List.concat_eq_append]
    rw [hsplitmsgs]
    have hfold : run_messages B initial_state
        (L.map Message.parsed ++ [Message.parsed b]) =
        run_messages B (run_messages B initial_state (L.map Message.parsed))
          [Message.parsed b] := by
      simp [run_messages, List.foldl_append]
    rw [hfold, hrunL]
    have hlast : run_messages B ⟨L, []⟩ [Message.parsed b] =
        on_message B ⟨L, []⟩ (Message.parsed b) := rfl
    rw [hlast]
    simp only [on_message]
    rw [if_pos]
    · simp [List.concat_eq_append]
    · simp only [List.length_append, List.length_cons, List.length_nil]
      omega

/-- C7 (witness): the statement instantiated at batch size 2 with two
and one arriving items respectively. -/
theorem C7_batch_threshold_witness :
    (1 ≤ 2 ∧ ([demoItemA, demoItemB] : List Item).length = 2 ∧
     ([demoItemA] : List Item).length = 2 - 1) ∧
    (run_messages 2 initial_state ([demoItemA, demoItemB].map Message.parsed) =
       ⟨[], [[demoItemA, demoItemB]]⟩ ∧
     (run_messages 2 initial_state ([demoItemA].map Message.parsed)).dispatched = [] ∧
     (run_messages 2 initial_state ([demoItemA].map Message.parsed)).batch_buffer =
       [demoItemA]) :=
  ⟨⟨by decide, by decide, by decide⟩,
   C7_batch_threshold 2 [demoItemA, demoItemB] [demoItemA] (by decide) (by decide)
     (by decide)⟩

/-- C9: when the dequeued payload's `pdf_ids` field holds a non-empty
bare string, the consumer performs no normalization: the per-pdf loop
iterates over the characters of the string, one ProcessingItem per
character, each single-character string used as the documentRef. -/
theorem C9_string_iteration (s : String) (it : Item) (env : Env) (c : Cache)
    (hs : s ≠ "") (hfield : it.pdf_ids = some (.jstr s)) :
    pdf_list it = s.toList.map (fun ch => String.mk [ch]) ∧
    process_single_item env c it =
      process_pdfs env (it.user.getD "anonymous") (it.question.getD "")
        (s.toList.map (fun ch => String.mk [ch])) c ∧
    (pdf_list it).all (fun p => p.length == 1) = true := by
  have h1 : pdf_list it = s.toList.map (fun ch => String.mk [ch]) := by
    simp [pdf_list, hfield, hs]
  refine ⟨h1, ?_, ?_⟩
  · unfold process_single_item
    rw [h1]
  · rw [h1]
    simp only [List.all_eq_true, List.mem_map]
    rintro p ⟨ch, -, rfl⟩
    rfl

/-- C9 (witness): the statement instantiated at the bare string `"ab"`,
which is iterated as the two documentRefs `"a"` and `"b"`. -/
theorem C9_string_iteration_witness :
    ("ab" ≠ "" ∧ c9Item.pdf_ids = some (.jstr "ab")) ∧
    (pdf_list c9Item = "ab".toList.map (fun ch => String.mk [ch]) ∧
     process_single_item demoEnv [] c9Item =
       process_pdfs demoEnv (c9Item.user.getD "anonymous") (c9Item.question.getD "")
         ("ab".toList.map (fun ch => String.mk [ch])) [] ∧
     (pdf_list c9Item).all (fun p => p.length == 1) = true) :=
  ⟨⟨by decide, rfl⟩,
   C9_string_iteration "ab" c9Item demoEnv [] (by decide) rfl⟩

/-- C10: starting from the initial empty buffer, after every completed
sequence of `on_message` invocations the shared batch buffer holds
strictly fewer than `BATCH_SIZE` items (for any batch size ≥ 1), since
the append and the threshold-triggered swap happen in the same
lock-held critical section. -/
theorem C10_buffer_invariant (B : Nat) (ms : List Message) (hB : 1 ≤ B) :
    (run_messages B initial_state ms).batch_buffer.length < B := by
  suffices h : ∀ (ms' : List Message) (s : DispatcherState),
      s.batch_buffer.length < B →
      (run_messages B s ms').batch_buffer.length < B by
    exact h ms initial_state (by simpa [initial_state] using hB)
  intro ms'
  induction ms' with
  | nil => intro s hs; exact hs
  | cons m rest ih =>
    intro s hs
    have hstep : (on_message B s m).batch_buffer.length < B := by
      cases m with
      | malformed => exact hs
      | parsed d =>
        simp only [on_message]
        split
        · exact hB
        · rename_i hcond
          show (s.batch_buffer ++ [d]).length < B
          omega
    exact ih (on_message B s m) hstep

/-- C10 (witness): the invariant instantiated at batch size 2 and a
concrete message sequence mixing malformed and parsed deliveries. -/
theorem C10_buffer_invariant_witness :
    1 ≤ 2 ∧
    (run_messages 2 initial_state
       [Message.malformed, Message.parsed demoItemA, Message.parsed demoItemB,
        Message.parsed demoItemA]).batch_buffer.length < 2 :=
  ⟨by decide,
   C10_buffer_invariant 2
     [Message.malformed, Message.parsed demoItemA, Message.parsed demoItemB,
      Message.parsed demoItemA] (by decide)⟩

end AIRag
